import Mathlib

/-!
Verification of the cTrader live-feed protocol client
(`ctrader-live-feed.mjs`): frame de-framing, payload dispatch,
handshake sequencing, reconnection and credential refresh.

Bytes are modelled as natural numbers, byte buffers as `List Nat`.
-/

namespace CtraderLiveFeed

/-- Big-endian unsigned 32-bit read of the first four bytes of a buffer,
as `Buffer.readUInt32BE(0)` at line 173 of `ctrader-live-feed.mjs`.
The fallback 0 is never used by the extraction loop, which only reads
a length once at least 4 bytes are present. -/
def readUInt32BE : List Nat → Nat
  | b0 :: b1 :: b2 :: b3 :: _ => ((b0 * 256 + b1) * 256 + b2) * 256 + b3
  | _ => 0

/-- Fuel-indexed form of the frame-extraction loop of the `sock.on('data')`
handler (lines 172-176): while at least 4 bytes are buffered and the
declared body length fits, strip the 4-byte header plus `len` body bytes
and emit the body; otherwise stop and keep the leftover bytes. -/
def consumeFuel : Nat → List Nat → List (List Nat) × List Nat
  | 0, buf => ([], buf)
  | fuel + 1, buf =>
    if 4 ≤ buf.length ∧ 4 + readUInt32BE buf ≤ buf.length then
      let len := readUInt32BE buf
      let rest := consumeFuel fuel (buf.drop (4 + len))
      ((buf.drop 4).take len :: rest.1, rest.2)
    else ([], buf)

/-- The frame-extraction loop itself: each iteration removes at least 4
bytes, so `buf.length` units of fuel always suffice. Returns the list of
extracted frame bodies and the unconsumed remainder left in `recvBuffer`. -/
def consume (buf : List Nat) : List (List Nat) × List Nat :=
  consumeFuel buf.length buf

/-- One `data` event (lines 170-171): the chunk is appended to the held
receive buffer and the extraction loop is run on the concatenation;
iterated over a list of chunks, accumulating the emitted frame bodies. -/
def feedAll (st : List Nat) : List (List Nat) → List (List Nat) × List Nat
  | [] => ([], st)
  | c :: cs =>
    let p := consume (st ++ c)
    let q := feedAll p.2 cs
    (p.1 ++ q.1, q.2)

lemma consumeFuel_short (fuel : Nat) (buf : List Nat) (h : buf.length < 4) :
    consumeFuel fuel buf = ([], buf) := by
  cases fuel with
  | zero => rfl
  | succ f =>
    simp only [consumeFuel]
    rw [if_neg]
    intro hc
    omega

lemma consumeFuel_congr : ∀ (f₁ f₂ : Nat) (buf : List Nat),
    buf.length ≤ f₁ → buf.length ≤ f₂ → consumeFuel f₁ buf = consumeFuel f₂ buf := by
  intro f₁
  induction f₁ with
  | zero =>
    intro f₂ buf h₁ _
    have hb : buf = [] := List.length_eq_zero.mp (Nat.le_zero.mp h₁)
    subst hb
    rw [consumeFuel_short f₂ [] (by simp)]
    rfl
  | succ f ih =>
    intro f₂ buf h₁ h₂
    by_cases hc : 4 ≤ buf.length ∧ 4 + readUInt32BE buf ≤ buf.length
    · have h4 : 4 ≤ buf.length := hc.1
      have hf₂ : ∃ g, f₂ = g + 1 := by
        cases f₂ with
        | zero => omega
        | succ g => exact ⟨g, rfl⟩
      obtain ⟨g, rfl⟩ := hf₂
      simp only [consumeFuel]
      rw [if_pos hc, if_pos hc]
      have hdrop : (buf.drop (4 + readUInt32BE buf)).length = buf.length - (4 + readUInt32BE buf) :=
        List.length_drop _ _
      have hrec := ih g (buf.drop (4 + readUInt32BE buf)) (by omega) (by omega)
      rw [hrec]
    · simp only [consumeFuel]
      rw [if_neg hc]
      cases f₂ with
      | zero =>
        have hb : buf = [] := List.length_eq_zero.mp (Nat.le_zero.mp h₂)
        subst hb
        rfl
      | succ g =>
        simp only [consumeFuel]
        rw [if_neg hc]

/-- Unfolding equation for `consume`, mirroring one pass of the while loop. -/
lemma consume_eq (buf : List Nat) : consume buf =
    if 4 ≤ buf.length ∧ 4 + readUInt32BE buf ≤ buf.length then
      ((buf.drop 4).take (readUInt32BE buf) :: (consume (buf.drop (4 + readUInt32BE buf))).1,
       (consume (buf.drop (4 + readUInt32BE buf))).2)
    else ([], buf) := by
  by_cases hc : 4 ≤ buf.length ∧ 4 + readUInt32BE buf ≤ buf.length
  · have h4 : 4 ≤ buf.length := hc.1
    rw [if_pos hc]
    have hn : ∃ n, buf.length = n + 1 := by
      cases hbl : buf.length with
      | zero => omega
      | succ n => exact ⟨n, rfl⟩
    obtain ⟨n, hn⟩ := hn
    have hdrop : (buf.drop (4 + readUInt32BE buf)).length = buf.length - (4 + readUInt32BE buf) :=
      List.length_drop _ _
    show consumeFuel buf.length buf = _
    rw [hn]
    simp only [consumeFuel]
    rw [if_pos hc]
    have : consumeFuel n (buf.drop (4 + readUInt32BE buf))
        = consume (buf.drop (4 + readUInt32BE buf)) :=
      consumeFuel_congr n _ _ (by omega) (le_refl _)
    rw [this]
  · rw [if_neg hc]
    show consumeFuel buf.length buf = _
    cases hbl : buf.length with
    | zero => rfl
    | succ n =>
      simp only [consumeFuel]
      rw [if_neg]
      exact hc

lemma readUInt32BE_append (buf extra : List Nat) (h : 4 ≤ buf.length) :
    readUInt32BE (buf ++ extra) = readUInt32BE buf := by
  match buf with
  | b0 :: b1 :: b2 :: b3 :: rest => rfl
  | [] => simp at h
  | [_] => simp at h
  | [_, _] => simp at h
  | [_, _, _] => simp at h

lemma consume_append : ∀ (n : Nat) (buf : List Nat), buf.length ≤ n → ∀ extra : List Nat,
    consume (buf ++ extra) =
      ((consume buf).1 ++ (consume ((consume buf).2 ++ extra)).1,
       (consume ((consume buf).2 ++ extra)).2) := by
  intro n
  induction n with
  | zero =>
    intro buf h extra
    have hb : buf = [] := List.length_eq_zero.mp (Nat.le_zero.mp h)
    subst hb
    have h0 : consume ([] : List Nat) = ([], []) := rfl
    rw [h0]
    simp
  | succ n ih =>
    intro buf h extra
    by_cases hc : 4 ≤ buf.length ∧ 4 + readUInt32BE buf ≤ buf.length
    · have h4 : 4 ≤ buf.length := hc.1
      have hlen : 4 + readUInt32BE buf ≤ buf.length := hc.2
      have hread : readUInt32BE (buf ++ extra) = readUInt32BE buf :=
        readUInt32BE_append buf extra h4
      have hcx : 4 ≤ (buf ++ extra).length ∧
          4 + readUInt32BE (buf ++ extra) ≤ (buf ++ extra).length := by
        constructor
        · rw [List.length_append]; omega
        · rw [hread, List.length_append]; omega
      rw [consume_eq (buf ++ extra), if_pos hcx, consume_eq buf, if_pos hc]
      rw [hread]
      have hdrop4 : (buf ++ extra).drop 4 = buf.drop 4 ++ extra :=
        List.drop_append_of_le_length h4
      have hdropLen : (buf ++ extra).drop (4 + readUInt32BE buf)
          = buf.drop (4 + readUInt32BE buf) ++ extra :=
        List.drop_append_of_le_length hlen
      have htake : (buf.drop 4 ++ extra).take (readUInt32BE buf)
          = (buf.drop 4).take (readUInt32BE buf) :=
        List.take_append_of_le_length (by rw [List.length_drop]; omega)
      rw [hdrop4, htake, hdropLen]
      have hrest : (buf.drop (4 + readUInt32BE buf)).length ≤ n := by
        rw [List.length_drop]; omega
      rw [ih (buf.drop (4 + readUInt32BE buf)) hrest extra]
      simp
    · rw [consume_eq buf, if_neg hc]
      simp
lemma consume_remainder_no_frame : ∀ (n : Nat) (buf : List Nat), buf.length ≤ n →
    (consume buf).2.length < 4 ∨ (consume buf).2.length < 4 + readUInt32BE (consume buf).2 := by
  intro n
  induction n with
  | zero =>
    intro buf h
    have hb : buf = [] := List.length_eq_zero.mp (Nat.le_zero.mp h)
    subst hb
    left
    simp [consume, consumeFuel]
  | succ n ih =>
    intro buf h
    by_cases hc : 4 ≤ buf.length ∧ 4 + readUInt32BE buf ≤ buf.length
    · rw [consume_eq buf, if_pos hc]
      have hrest : (buf.drop (4 + readUInt32BE buf)).length ≤ n := by
        rw [List.length_drop]; omega
      exact ih (buf.drop (4 + readUInt32BE buf)) hrest
    · rw [consume_eq buf, if_neg hc]
      show buf.length < 4 ∨ buf.length < 4 + readUInt32BE buf
      omega

lemma consume_stuck (buf : List Nat)
    (h : buf.length < 4 ∨ buf.length < 4 + readUInt32BE buf) :
    consume buf = ([], buf) := by
  rw [consume_eq buf, if_neg]
  omega

lemma feedAll_eq : ∀ (chunks : List (List Nat)) (st : List Nat),
    consume st = ([], st) → feedAll st chunks = consume (st ++ chunks.flatten) := by
  intro chunks
  induction chunks with
  | nil =>
    intro st hst
    simp only [feedAll, List.flatten_nil, List.append_nil]
    exact hst.symm
  | cons c cs ih =>
    intro st hst
    simp only [feedAll, List.flatten_cons]
    have hrem : consume (consume (st ++ c)).2 = ([], (consume (st ++ c)).2) :=
      consume_stuck _ (consume_remainder_no_frame (st ++ c).length (st ++ c) (le_refl _))
    rw [ih (consume (st ++ c)).2 hrem]
    have happ := consume_append (st ++ c).length (st ++ c) (le_refl _) cs.flatten
    rw [List.append_assoc] at happ
    rw [happ]

/-- C1: de-framing is chunk-boundary independent — feeding chunks one at a
time through the `sock.on('data')` accumulate-and-extract step emits exactly
the frame bodies that a single extraction pass over the concatenation of all
chunks emits, with the same leftover; and the concrete scenario of two frames
totalling 37 bytes delivered as chunks of 10, 5 and 22 bytes yields exactly
the two frame bodies with the correct boundaries and an empty remainder. -/
theorem consume_chunk_boundary_independence :
    (∀ chunks : List (List Nat), feedAll [] chunks = consume chunks.flatten)
    ∧ feedAll []
        [[0, 0, 0, 13, 1, 2, 3, 4, 5, 6],
         [7, 8, 9, 10, 11],
         [12, 13, 0, 0, 0, 16, 21, 22, 23, 24, 25, 26, 27, 28, 29, 30, 31, 32, 33, 34, 35, 36]]
      = ([[1, 2, 3, 4, 5, 6, 7, 8, 9, 10, 11, 12, 13],
          [21, 22, 23, 24, 25, 26, 27, 28, 29, 30, 31, 32, 33, 34, 35, 36]], []) := by
  constructor
  · intro chunks
    have h0 : consume ([] : List Nat) = ([], []) := rfl
    have := feedAll_eq chunks [] h0
    simpa using this
  · rfl

/-- C10: the extraction loop terminates with a remainder containing no
complete frame (the remainder is shorter than 4 bytes or its declared body
length exceeds the bytes available), and whenever a complete frame is
present one iteration emits its body and removes exactly `4 + len` bytes
(at least 4) from the front of the buffer. -/
theorem consume_terminates_remainder_incomplete (buf : List Nat) :
    ((consume buf).2.length < 4 ∨ (consume buf).2.length < 4 + readUInt32BE (consume buf).2)
    ∧ (4 ≤ buf.length → 4 + readUInt32BE buf ≤ buf.length →
        consume buf =
          ((buf.drop 4).take (readUInt32BE buf) :: (consume (buf.drop (4 + readUInt32BE buf))).1,
           (consume (buf.drop (4 + readUInt32BE buf))).2)
        ∧ (buf.drop (4 + readUInt32BE buf)).length + (4 + readUInt32BE buf) = buf.length
        ∧ 4 ≤ 4 + readUInt32BE buf) := by
  constructor
  · exact consume_remainder_no_frame buf.length buf (le_refl _)
  · intro h4 hlen
    refine ⟨?_, ?_, ?_⟩
    · rw [consume_eq buf, if_pos ⟨h4, hlen⟩]
    · rw [List.length_drop]; omega
    · omega

/-- C10 witness: the loop step evaluated on the concrete buffer
`[0,0,0,1,7,9,9]` (one complete frame of declared length 1, then leftovers). -/
theorem consume_terminates_remainder_incomplete_witness :
    consume [0, 0, 0, 1, 7, 9, 9] =
      (([0, 0, 0, 1, 7, 9, 9].drop 4).take (readUInt32BE [0, 0, 0, 1, 7, 9, 9])
          :: (consume ([0, 0, 0, 1, 7, 9, 9].drop (4 + readUInt32BE [0, 0, 0, 1, 7, 9, 9]))).1,
       (consume ([0, 0, 0, 1, 7, 9, 9].drop (4 + readUInt32BE [0, 0, 0, 1, 7, 9, 9]))).2)
    ∧ ([0, 0, 0, 1, 7, 9, 9].drop (4 + readUInt32BE [0, 0, 0, 1, 7, 9, 9])).length
        + (4 + readUInt32BE [0, 0, 0, 1, 7, 9, 9]) = [0, 0, 0, 1, 7, 9, 9].length
    ∧ 4 ≤ 4 + readUInt32BE [0, 0, 0, 1, 7, 9, 9] :=
  (consume_terminates_remainder_incomplete [0, 0, 0, 1, 7, 9, 9]).2 (by decide) (by decide)

/-- C8 counterexample: on a buffer whose 4-byte big-endian length field
declares 4294967295 body bytes — exceeding any frame-size cap — consumption
does not fail: the loop simply returns no frames and retains the whole
buffer, waiting for the declared bytes to arrive. There is no `FrameTooLarge`
outcome in the code and no teardown. -/
theorem consume_no_size_cap_counterexample :
    consume [255, 255, 255, 255] = ([], [255, 255, 255, 255]) := by
  decide

/-- C8 amended: the extraction loop enforces no maximum frame size — for
every buffer whose declared body length exceeds the bytes available (however
large the untrusted length field is), it returns no frames and keeps the
entire buffer, awaiting the remaining bytes; it never fails and never tears
the connection down. -/
theorem consume_no_size_cap (buf : List Nat)
    (h : buf.length < 4 + readUInt32BE buf) :
    consume buf = ([], buf) :=
  consume_stuck buf (Or.inr h)

/-- C8 amended witness: a buffer declaring a 256-byte body with only one
byte present is retained unchanged. -/
theorem consume_no_size_cap_witness :
    consume [0, 0, 1, 0, 9] = ([], [0, 0, 1, 0, 9]) :=
  consume_no_size_cap [0, 0, 1, 0, 9] (by decide)

/-! Payload dispatch and handshake handlers (lines 78-158 and 180-195). -/

/-- Numeric wire discriminators the dispatch switch compares against,
looked up from `ProtoOAPayloadType` (lines 74, 89-95, 181-192). The
protobuf schema files are loaded at runtime, so the theorems below are
parametric in the actual numeric assignment. -/
structure PayloadTypeValues where
  versionRes : Nat
  appAuthRes : Nat
  accountAuthRes : Nat
  symbolsListRes : Nat
  spotEvent : Nat
  errorRes : Nat
deriving DecidableEq

/-- Which emitter event the dispatch switch fires for a payload type. -/
inductive DispatchResult where
  | version
  | authApp
  | authAccount
  | symbolsList
  | spot
  | errorRes
  | unhandled (pt : Nat)
deriving DecidableEq

/-- The `switch(pt)` of the data handler (lines 180-195): compare the
decoded payload type against the known response discriminators in source
order; anything else falls to the `default` branch, which only logs
`Unhandled payload pt` and continues. -/
def dispatchPayload (V : PayloadTypeValues) (pt : Nat) : DispatchResult :=
  if pt = V.versionRes then .version
  else if pt = V.appAuthRes then .authApp
  else if pt = V.accountAuthRes then .authAccount
  else if pt = V.symbolsListRes then .symbolsList
  else if pt = V.spotEvent then .spot
  else if pt = V.errorRes then .errorRes
  else .unhandled pt

/-- The loop body applied to each extracted frame's payload type in turn. -/
def dispatchSeq (V : PayloadTypeValues) (pts : List Nat) : List DispatchResult :=
  pts.map (dispatchPayload V)

/-- Outbound requests (the `send` wrapper, lines 105-115, with the message
types of lines 78-95). -/
inductive Request where
  | versionReq
  | appAuthReq
  | accountAuthReq
  | symbolsListReq
  | subscribeSpotsReq
deriving DecidableEq

/-- Observable effects of the client: requests written to the socket,
console/file output, the startup credential refresh, and process exit. -/
inductive Action where
  | send (r : Request)
  | writeSymbolsCsv
  | logSymbolNotFound
  | emitSpotQuote
  | logApiError (code : String)
  | logUnhandled (pt : Nat)
  | refreshAttempt
  | logRefreshError
  | envUpdated
  | exitProcess (code : Nat)
  | startStream
deriving DecidableEq

/-- A decoded inbound message as the emitter callbacks see it:
for a symbols list, whether the symbol the operator typed is found in it
(line 146); for an error response, its error code string (line 157). -/
inductive RecvMsg where
  | versionRes
  | appAuthRes
  | accountAuthRes
  | symbolsListRes (symbolFound : Bool)
  | spotEvent
  | errorRes (errorCode : String)
  | unhandled (pt : Nat)
deriving DecidableEq

/-- The emitter callbacks (lines 118-158) together with the dispatch
switch: the actions performed on receiving one decoded message.
`version` sends AppAuthReq, `auth_app` sends AccountAuthReq,
`auth_account` sends SymbolsListReq, `symbols_list` writes the CSV and
sends SubscribeSpotsReq when the chosen symbol is found, `spot` prints the
quote, `error_res` logs the API error, and an unhandled payload type is
only logged. -/
def handleMsg : RecvMsg → List Action
  | .versionRes => [.send .appAuthReq]
  | .appAuthRes => [.send .accountAuthReq]
  | .accountAuthRes => [.send .symbolsListReq]
  | .symbolsListRes symbolFound =>
      .writeSymbolsCsv ::
        (if symbolFound then [.send .subscribeSpotsReq] else [.logSymbolNotFound])
  | .spotEvent => [.emitSpotQuote]
  | .errorRes errorCode => [.logApiError errorCode]
  | .unhandled pt => [.logUnhandled pt]

/-- The actions of one connection: on connect the client sends VersionReq
(line 167), then each received message is handled in order. -/
def sessionActions (trace : List RecvMsg) : List Action :=
  Action.send .versionReq :: trace.flatMap handleMsg

/-- The `refreshAccessToken` call (lines 28-58) as its visible action
trace: one exchange attempt against the OAuth endpoint; on a non-ok
response the failure is logged and the process exits with code 1 (lines
39-42); on success the `.env` store is rewritten (lines 45-57). -/
def refreshAccessTokenTrace (ok : Bool) : List Action :=
  Action.refreshAttempt ::
    (if ok then [Action.envUpdated] else [Action.logRefreshError, Action.exitProcess 1])

/-- Top-level program (lines 206-207): `await refreshAccessToken()` then
`await startTickStream()`; `process.exit(1)` aborts, so the stream only
starts when the refresh exchange succeeded. -/
def mainTrace (ok : Bool) : List Action :=
  refreshAccessTokenTrace ok ++ (if ok then [Action.startStream] else [])

lemma handleMsg_send_cases (m : RecvMsg) (r : Request) (h : Action.send r ∈ handleMsg m) :
    (m = .versionRes ∧ r = .appAuthReq)
    ∨ (m = .appAuthRes ∧ r = .accountAuthReq)
    ∨ (m = .accountAuthRes ∧ r = .symbolsListReq)
    ∨ (∃ b, m = .symbolsListRes b ∧ r = .subscribeSpotsReq) := by
  cases m with
  | versionRes => simp_all [handleMsg]
  | appAuthRes => simp_all [handleMsg]
  | accountAuthRes => simp_all [handleMsg]
  | symbolsListRes b =>
    cases b with
    | true => simp_all [handleMsg]
    | false => simp_all [handleMsg]
  | spotEvent => simp_all [handleMsg]
  | errorRes c => simp_all [handleMsg]
  | unhandled pt => simp_all [handleMsg]

lemma sessionActions_send_origin (t : List RecvMsg) (r : Request)
    (hr : r ≠ .versionReq) (h : Action.send r ∈ sessionActions t) :
    ∃ m ∈ t, Action.send r ∈ handleMsg m := by
  simp only [sessionActions, List.mem_cons] at h
  rcases h with h | h
  · exact absurd (by injection h) hr
  · rw [List.mem_flatMap] at h
    exact h

/-- C2: the handshake requests are sent only in reaction to the previous
stage's response — over every prefix of a run's received-message trace,
AppAuthReq is sent only if VERSION_RES was received in that prefix,
AccountAuthReq only after APPLICATION_AUTH_RES, SymbolsListReq only after
ACCOUNT_AUTH_RES, and SubscribeSpotsReq only after SYMBOLS_LIST_RES. -/
theorem handshake_request_order (trace : List RecvMsg) (k : Nat) :
    (Action.send .appAuthReq ∈ sessionActions (trace.take k)
        → RecvMsg.versionRes ∈ trace.take k)
    ∧ (Action.send .accountAuthReq ∈ sessionActions (trace.take k)
        → RecvMsg.appAuthRes ∈ trace.take k)
    ∧ (Action.send .symbolsListReq ∈ sessionActions (trace.take k)
        → RecvMsg.accountAuthRes ∈ trace.take k)
    ∧ (Action.send .subscribeSpotsReq ∈ sessionActions (trace.take k)
        → ∃ b, RecvMsg.symbolsListRes b ∈ trace.take k) := by
  refine ⟨?_, ?_, ?_, ?_⟩ <;> intro h
  · obtain ⟨m, hm, hsend⟩ := sessionActions_send_origin _ _ (by simp) h
    rcases handleMsg_send_cases m _ hsend with ⟨he, _⟩ | ⟨_, he⟩ | ⟨_, he⟩ | ⟨b, _, he⟩
    · exact he ▸ hm
    · exact absurd he (by simp)
    · exact absurd he (by simp)
    · exact absurd he (by simp)
  · obtain ⟨m, hm, hsend⟩ := sessionActions_send_origin _ _ (by simp) h
    rcases handleMsg_send_cases m _ hsend with ⟨_, he⟩ | ⟨he, _⟩ | ⟨_, he⟩ | ⟨b, _, he⟩
    · exact absurd he (by simp)
    · exact he ▸ hm
    · exact absurd he (by simp)
    · exact absurd he (by simp)
  · obtain ⟨m, hm, hsend⟩ := sessionActions_send_origin _ _ (by simp) h
    rcases handleMsg_send_cases m _ hsend with ⟨_, he⟩ | ⟨_, he⟩ | ⟨he, _⟩ | ⟨b, _, he⟩
    · exact absurd he (by simp)
    · exact absurd he (by simp)
    · exact he ▸ hm
    · exact absurd he (by simp)
  · obtain ⟨m, hm, hsend⟩ := sessionActions_send_origin _ _ (by simp) h
    rcases handleMsg_send_cases m _ hsend with ⟨_, he⟩ | ⟨_, he⟩ | ⟨_, he⟩ | ⟨b, hb, _⟩
    · exact absurd he (by simp)
    · exact absurd he (by simp)
    · exact absurd he (by simp)
    · exact ⟨b, hb ▸ hm⟩

/-- C2 witness: in the one-message run that receives VERSION_RES, the
AppAuthReq send is present and the theorem yields the received response. -/
theorem handshake_request_order_witness :
    RecvMsg.versionRes ∈ ([RecvMsg.versionRes].take 1) :=
  (handshake_request_order [RecvMsg.versionRes] 1).1 (by decide)

/-- C4 counterexample: a credential-expired ErrorResponse (error code
`CH_ACCESS_TOKEN_INVALID`) received mid-handshake is merely logged; the
very next received response triggers the next handshake request
(AppAuthReq) with zero credential-refresh attempts in between. -/
theorem error_res_no_refresh_counterexample :
    sessionActions [RecvMsg.errorRes "CH_ACCESS_TOKEN_INVALID", RecvMsg.versionRes]
      = [Action.send .versionReq,
         Action.logApiError "CH_ACCESS_TOKEN_INVALID",
         Action.send .appAuthReq]
    ∧ (sessionActions [RecvMsg.errorRes "CH_ACCESS_TOKEN_INVALID", RecvMsg.versionRes]).count
        Action.refreshAttempt = 0 := by
  constructor
  · rfl
  · rfl

lemma handleMsg_count_refreshAttempt (m : RecvMsg) :
    (handleMsg m).count Action.refreshAttempt = 0 := by
  cases m with
  | symbolsListRes b => cases b <;> rfl
  | versionRes => rfl
  | appAuthRes => rfl
  | accountAuthRes => rfl
  | spotEvent => rfl
  | errorRes c => rfl
  | unhandled pt => rfl

/-- C4 amended: an ErrorResponse is handled identically for every error
code — it is only logged to the operator, the session stays up, and no
credential refresh is ever performed during a connection: the number of
refresh attempts in any session trace is zero, the single refresh being
the one made at program startup before connecting. -/
theorem error_res_no_refresh
    (c : String) (trace : List RecvMsg) :
    handleMsg (.errorRes c) = [Action.logApiError c]
    ∧ (sessionActions trace).count Action.refreshAttempt = 0
    ∧ (mainTrace true).count Action.refreshAttempt = 1 := by
  refine ⟨rfl, ?_, rfl⟩
  simp only [sessionActions, List.count_cons, List.count_flatMap]
  induction trace with
  | nil => rfl
  | cons m ms ih =>
    simp only [List.map_cons, List.sum_cons, Function.comp_apply,
      handleMsg_count_refreshAttempt m]
    omega

/-- C5: the dispatch switch is total and non-failing — a payload type that
matches no registered response discriminator falls to the default branch,
which yields the logged-and-ignored `unhandled pt` result (no exception,
no teardown), sequence processing continues with the rest of the frames,
and a subsequent SpotEvent frame still dispatches to the spot handler. -/
theorem dispatch_unrecognized_ignored (V : PayloadTypeValues) (pt : Nat)
    (h1 : pt ≠ V.versionRes) (h2 : pt ≠ V.appAuthRes) (h3 : pt ≠ V.accountAuthRes)
    (h4 : pt ≠ V.symbolsListRes) (h5 : pt ≠ V.spotEvent) (h6 : pt ≠ V.errorRes)
    (hs1 : V.spotEvent ≠ V.versionRes) (hs2 : V.spotEvent ≠ V.appAuthRes)
    (hs3 : V.spotEvent ≠ V.accountAuthRes) (hs4 : V.spotEvent ≠ V.symbolsListRes) :
    dispatchPayload V pt = .unhandled pt
    ∧ (∀ rest : List Nat,
        dispatchSeq V (pt :: rest) = DispatchResult.unhandled pt :: dispatchSeq V rest)
    ∧ dispatchPayload V V.spotEvent = .spot := by
  refine ⟨?_, ?_, ?_⟩
  · simp [dispatchPayload, h1, h2, h3, h4, h5, h6]
  · intro rest
    have hu : dispatchPayload V pt = .unhandled pt := by
      simp [dispatchPayload, h1, h2, h3, h4, h5, h6]
    simp [dispatchSeq, hu]
  · simp [dispatchPayload, hs1, hs2, hs3, hs4]

/-- C5 witness: with one concrete discriminator assignment, wire code 9999
is unrecognized, processing continues, and a following SpotEvent frame
dispatches to the spot handler. -/
theorem dispatch_unrecognized_ignored_witness :
    dispatchPayload ⟨2101, 2103, 2105, 2115, 2131, 2142⟩ 9999 = .unhandled 9999
    ∧ (∀ rest : List Nat,
        dispatchSeq ⟨2101, 2103, 2105, 2115, 2131, 2142⟩ (9999 :: rest)
          = DispatchResult.unhandled 9999 :: dispatchSeq ⟨2101, 2103, 2105, 2115, 2131, 2142⟩ rest)
    ∧ dispatchPayload ⟨2101, 2103, 2105, 2115, 2131, 2142⟩
        (PayloadTypeValues.spotEvent ⟨2101, 2103, 2105, 2115, 2131, 2142⟩) = .spot :=
  dispatch_unrecognized_ignored ⟨2101, 2103, 2105, 2115, 2131, 2142⟩ 9999
    (by decide) (by decide) (by decide) (by decide) (by decide) (by decide)
    (by decide) (by decide) (by decide) (by decide)

/-- C7 counterexample: when the refresh exchange returns a non-ok
response, the program makes no retry at all — the trace shows exactly one
exchange attempt followed immediately by the error log and `process.exit(1)`,
so the failure is fatal on the first failed attempt. -/
theorem refresh_failure_immediately_fatal_counterexample :
    mainTrace false
      = [Action.refreshAttempt, Action.logRefreshError, Action.exitProcess 1]
    ∧ (mainTrace false).count Action.refreshAttempt = 1 := by
  constructor
  · rfl
  · rfl

/-- C7 amended: a failed refresh exchange is immediately fatal — exactly
one exchange attempt is ever made, and on failure the error is logged and
the process exits with code 1 without starting the stream; there is no
in-process retry or backoff. -/
theorem refresh_failure_immediately_fatal (ok : Bool) :
    (mainTrace ok).count Action.refreshAttempt = 1
    ∧ (ok = false →
        mainTrace ok = [Action.refreshAttempt, Action.logRefreshError, Action.exitProcess 1]
        ∧ (mainTrace ok).count Action.startStream = 0) := by
  cases ok with
  | true => exact ⟨rfl, by intro h; cases h⟩
  | false => exact ⟨rfl, fun _ => ⟨rfl, rfl⟩⟩

/-- C7 amended witness: the failing run evaluated concretely. -/
theorem refresh_failure_immediately_fatal_witness :
    mainTrace false = [Action.refreshAttempt, Action.logRefreshError, Action.exitProcess 1]
    ∧ (mainTrace false).count Action.startStream = 0 :=
  (refresh_failure_immediately_fatal false).2 rfl

/-! Spec-side handshake state machine, for comparison with the code's
payload-type-only dispatch. -/

/-- Handshake states as the specification describes them (strict linear
order, each entered on the matching server response); the discovery stage
is the symbols-list request of this client. -/
inductive HandshakeState where
  | disconnected
  | awaitingVersionAck
  | awaitingAppAuthAck
  | awaitingAccountAuthAck
  | awaitingSymbolsList
  | awaitingSubscribeAck
  | streaming
deriving DecidableEq

/-- Follows the spec's words: which received message kind is the response
expected in a given handshake state (spot events being the expected
steady-state traffic while streaming). Defined from the specification, not
the code — the code keeps no handshake state — so that the code's dispatch
can be compared against it. -/
def specExpectedResponse : HandshakeState → RecvMsg → Bool
  | .awaitingVersionAck, .versionRes => true
  | .awaitingAppAuthAck, .appAuthRes => true
  | .awaitingAccountAuthAck, .accountAuthRes => true
  | .awaitingSymbolsList, .symbolsListRes _ => true
  | .streaming, .spotEvent => true
  | _, _ => false

/-- C9 counterexample: VERSION_RES is not the expected response while
streaming, yet the code's handler still reacts to it by sending AppAuthReq —
the reaction depends on the wire discriminator alone, and an unexpected
recognized message is neither ignored nor state-checked. -/
theorem unexpected_message_counterexample :
    specExpectedResponse .streaming .versionRes = false
    ∧ handleMsg .versionRes = [Action.send .appAuthReq] := by
  constructor
  · rfl
  · rfl

/-- C9 amended: the action taken on a received frame depends only on the
wire discriminator, never on the handshake state (the code keeps none):
only messages with no registered handler are merely logged and ignored,
while a recognized response fires its handler in every state — in
particular a VERSION_RES or APPLICATION_AUTH_RES arriving in a state where
it is not the expected response still re-sends the next-stage request. -/
theorem unexpected_message_still_handled :
    (∀ pt : Nat, handleMsg (.unhandled pt) = [Action.logUnhandled pt])
    ∧ (∀ s : HandshakeState, specExpectedResponse s .versionRes = false →
        handleMsg .versionRes = [Action.send .appAuthReq])
    ∧ (∀ s : HandshakeState, specExpectedResponse s .appAuthRes = false →
        handleMsg .appAuthRes = [Action.send .accountAuthReq]) :=
  ⟨fun _ => rfl, fun _ _ => rfl, fun _ _ => rfl⟩

/-- C9 amended witness: instantiated in the streaming state, where neither
VERSION_RES nor APPLICATION_AUTH_RES is expected. -/
theorem unexpected_message_still_handled_witness :
    handleMsg .versionRes = [Action.send .appAuthReq]
    ∧ handleMsg .appAuthRes = [Action.send .accountAuthReq] :=
  ⟨unexpected_message_still_handled.2.1 .streaming (by decide),
   unexpected_message_still_handled.2.2 .streaming (by decide)⟩

/-! Connection lifecycle: the receive buffer across reconnects
(lines 161-203). -/

/-- The mutable state closed over by `startTickStream`: the receive buffer
(line 162, declared outside `connect`) and the frame bodies extracted so
far. -/
structure FeedState where
  recvBuffer : List Nat
  framesDispatched : List (List Nat)
deriving DecidableEq

/-- Socket events relevant to the buffer: a `data` delivery, and a
`close` followed by the scheduled reconnect (line 200). -/
inductive NetEvent where
  | data (chunk : List Nat)
  | closeReconnect
deriving DecidableEq

/-- Effect of one socket event on the feed state, as the code behaves: a
`data` event appends the chunk and runs the extraction loop on the shared
`recvBuffer`; the `close` handler only logs and calls
`setTimeout(connect, 5000)` — `connect` reassigns `sock` but never resets
`recvBuffer`, so the buffer carries over into the new connection. -/
def stepEvent (st : FeedState) : NetEvent → FeedState
  | .data chunk =>
    let p := consume (st.recvBuffer ++ chunk)
    { recvBuffer := p.2, framesDispatched := st.framesDispatched ++ p.1 }
  | .closeReconnect => st

/-- A run of socket events from an initial feed state. -/
def runEvents (st : FeedState) : List NetEvent → FeedState
  | [] => st
  | e :: es => runEvents (stepEvent st e) es

/-- C3 evaluation at the failing input: the first connection delivers a
partial frame (header declaring 5 body bytes, one byte arrived), the
socket closes and reconnects, and the buffer still holds those 5 stale
bytes; the new connection's first 4 bytes then complete a frame assembled
from both connections' data. -/
theorem recv_buffer_carried_across_reconnect :
    (stepEvent { recvBuffer := [0, 0, 0, 5, 1], framesDispatched := [] }
        NetEvent.closeReconnect).recvBuffer = [0, 0, 0, 5, 1]
    ∧ runEvents { recvBuffer := [], framesDispatched := [] }
        [NetEvent.data [0, 0, 0, 5, 1], NetEvent.closeReconnect, NetEvent.data [2, 3, 4, 5]]
      = { recvBuffer := [], framesDispatched := [[1, 2, 3, 4, 5]] } := by
  constructor
  · rfl
  · rfl

/-! Credential refresh persistence (lines 43-57). -/

/-- The process-wide credential variables destructured from the
environment (lines 15-21). -/
structure Credentials where
  clientId : String
  clientSecret : String
  accessToken : String
  refreshToken : String
  accountId : String
deriving DecidableEq

/-- The five credential lines of the durable `.env` store. -/
structure EnvStore where
  clientId : String
  clientSecret : String
  accessToken : String
  refreshToken : String
  accountId : String
deriving DecidableEq

/-- The `update` helper of line 48: use the new value when truthy,
otherwise keep the existing `.env` line. -/
def updateEnvLine (v old : String) : String :=
  if v = "" then old else v

/-- The success path of `refreshAccessToken` (lines 43-57): the `.env`
store is rewritten with the new access and refresh tokens (lines 49-56),
but in memory only `CTRADER_ACCESS_TOKEN` is reassigned (line 57) — the
in-memory refresh token keeps its old value. -/
def refreshSuccess (mem : Credentials) (env : EnvStore)
    (newAccess newRefresh : String) : Credentials × EnvStore :=
  ({ mem with accessToken := newAccess },
   { clientId := updateEnvLine mem.clientId env.clientId,
     clientSecret := updateEnvLine mem.clientSecret env.clientSecret,
     accessToken := updateEnvLine newAccess env.accessToken,
     refreshToken := updateEnvLine newRefresh env.refreshToken,
     accountId := updateEnvLine mem.accountId env.accountId })

/-- C6 evaluation at the failing input: a successful refresh that returns
the pair ("newA", "newR") leaves the durable store holding the new pair
but the in-memory credentials holding ("newA", "oldR") — the in-memory
refresh token is not updated, so memory and store disagree on the
refresh token and the in-memory pair is half-new. -/
theorem refresh_updates_memory_partially :
    (refreshSuccess
        { clientId := "id", clientSecret := "sec", accessToken := "oldA",
          refreshToken := "oldR", accountId := "acct" }
        { clientId := "id", clientSecret := "sec", accessToken := "oldA",
          refreshToken := "oldR", accountId := "acct" }
        "newA" "newR").2.accessToken = "newA"
    ∧ (refreshSuccess
        { clientId := "id", clientSecret := "sec", accessToken := "oldA",
          refreshToken := "oldR", accountId := "acct" }
        { clientId := "id", clientSecret := "sec", accessToken := "oldA",
          refreshToken := "oldR", accountId := "acct" }
        "newA" "newR").2.refreshToken = "newR"
    ∧ (refreshSuccess
        { clientId := "id", clientSecret := "sec", accessToken := "oldA",
          refreshToken := "oldR", accountId := "acct" }
        { clientId := "id", clientSecret := "sec", accessToken := "oldA",
          refreshToken := "oldR", accountId := "acct" }
        "newA" "newR").1.accessToken = "newA"
    ∧ (refreshSuccess
        { clientId := "id", clientSecret := "sec", accessToken := "oldA",
          refreshToken := "oldR", accountId := "acct" }
        { clientId := "id", clientSecret := "sec", accessToken := "oldA",
          refreshToken := "oldR", accountId := "acct" }
        "newA" "newR").1.refreshToken = "oldR" := by
  refine ⟨?_, ?_, ?_, ?_⟩ <;> rfl

end CtraderLiveFeed
